import Mathlib

/-!
Shallow embedding of `src/image_ratio_converter.py`.

The geometry-level core of `resize_to_16_9` (lines 24-68) is embedded as
`computeTransform`: it takes the decoded image's dimensions and the method
and returns the canvas operation the code asks PIL to perform together with
the output geometry (the size PIL reports for the resulting image).

Python's float ratio arithmetic (`target_ratio = 16 / 9`,
`current_ratio = original_width / original_height`) is modelled as exact
rational arithmetic in `ℚ`; `int(x)` on the nonnegative quantities involved
is truncation toward zero, i.e. the floor `⌊x⌋₊`. Python's `//` on the
nonnegative integers involved is floor division, i.e. `Nat` division.
`original_width / original_height` raises `ZeroDivisionError` when the
height is zero (line 31, before any method dispatch), modelled by `none`.
-/

/-- Pixel mode of a decoded image buffer (PIL mode strings such as RGB, RGBA, P, L). -/
inductive Mode
  | rgb
  | rgba
  | l
  | p
  | other
deriving DecidableEq

/-- A width/height pair as reported by `img.size` (line 25 / line 70). -/
structure Geometry where
  width : ℕ
  height : ℕ
deriving DecidableEq

/-- The `method` argument of `resize_to_16_9`: crop, fit or stretch (lines 33, 46, 63). -/
inductive Method
  | crop
  | fit
  | stretch
deriving DecidableEq

/-- The single PIL buffer operation each method performs:
`img.crop((left, top, right, bottom))` (lines 39, 44),
`Image.new(mode, (cw, ch), fill)` followed by `new_img.paste(img, (ox, oy))`
(lines 51-53, 58-60), or `img.resize((w, h), LANCZOS)` (line 68). -/
inductive CanvasOp
  | cropBox (left top right bottom : ℕ)
  | pasteOnCanvas (mode : Mode) (canvasWidth canvasHeight : ℕ)
      (fill : ℕ × ℕ × ℕ) (offsetX offsetY : ℕ)
  | resizeTo (width height : ℕ)
deriving DecidableEq

/-- The operation requested of PIL plus the resulting image geometry. -/
structure TransformResult where
  op : CanvasOp
  outputGeometry : Geometry
deriving DecidableEq

/-- Line 30: `target_ratio = 16 / 9`. -/
def targetRatio : ℚ := 16 / 9

/-- Geometry core of `resize_to_16_9` (lines 24-68 of
`src/image_ratio_converter.py`), one branch per method:

* crop (lines 33-44): if `current_ratio > target_ratio` crop width to
  `int(original_height * target_ratio)` centered, else crop height to
  `int(original_width / target_ratio)` centered; output geometry is the
  crop box's size `(right - left, bottom - top)`.
* fit (lines 46-61): build a black `RGB` canvas of the padded size and paste
  the original at the centered offset; output geometry is the canvas size.
* stretch (lines 63-68): resize to `(original_width,
  int(original_width / target_ratio))`.

`none` models the `ZeroDivisionError` raised by line 31 when the height is
zero; there is no guard on the dimensions anywhere in the function. -/
def computeTransform (method : Method) (w h : ℕ) : Option TransformResult :=
  if h = 0 then none
  else
    let currentRatio : ℚ := (w : ℚ) / (h : ℚ)
    some <| match method with
    | .crop =>
      if currentRatio > targetRatio then
        let newWidth := ⌊(h : ℚ) * targetRatio⌋₊
        let left := (w - newWidth) / 2
        { op := .cropBox left 0 (left + newWidth) h,
          outputGeometry := ⟨left + newWidth - left, h - 0⟩ }
      else
        let newHeight := ⌊(w : ℚ) / targetRatio⌋₊
        let top := (h - newHeight) / 2
        { op := .cropBox 0 top w (top + newHeight),
          outputGeometry := ⟨w - 0, top + newHeight - top⟩ }
    | .fit =>
      if currentRatio > targetRatio then
        let newHeight := ⌊(w : ℚ) / targetRatio⌋₊
        let top := (newHeight - h) / 2
        { op := .pasteOnCanvas .rgb w newHeight (0, 0, 0) 0 top,
          outputGeometry := ⟨w, newHeight⟩ }
      else
        let newWidth := ⌊(h : ℚ) * targetRatio⌋₊
        let left := (newWidth - w) / 2
        { op := .pasteOnCanvas .rgb newWidth h (0, 0, 0) left 0,
          outputGeometry := ⟨newWidth, h⟩ }
    | .stretch =>
      let newWidth := w
      let newHeight := ⌊(w : ℚ) / targetRatio⌋₊
      { op := .resizeTo newWidth newHeight,
        outputGeometry := ⟨newWidth, newHeight⟩ }

/-- A decoded image: geometry plus pixel mode (the pixel payload itself is
owned by PIL and never inspected by the core). -/
structure Img where
  width : ℕ
  height : ℕ
  mode : Mode
deriving DecidableEq

/-- Mode of the buffer each `CanvasOp` produces: `img.crop` and `img.resize`
return a buffer in the original image's mode, while `Image.new(m, ...)`
followed by `paste` returns a buffer in the freshly requested mode `m`. -/
def opMode (original : Mode) : CanvasOp → Mode
  | .cropBox _ _ _ _ => original
  | .pasteOnCanvas m _ _ _ _ _ => m
  | .resizeTo _ _ => original

/-- The reassignment of `img` in `resize_to_16_9`: apply the method's canvas
operation to a decoded image, tracking geometry and mode. -/
def applyMethod (method : Method) (img : Img) : Option Img :=
  (computeTransform method img.width img.height).map fun r =>
    { width := r.outputGeometry.width,
      height := r.outputGeometry.height,
      mode := opMode img.mode r.op }

/-- Aspect ratio of a geometry, as printed on line 72. -/
def geomRatio (g : Geometry) : ℚ := (g.width : ℚ) / (g.height : ℚ)

/- ### Arithmetic bridge lemmas:
the exact-rational model of the float formulas reduced to `Nat` arithmetic. -/

theorem floor_mul_target (h : ℕ) : ⌊(h : ℚ) * targetRatio⌋₊ = 16 * h / 9 := by
  have hcast : (h : ℚ) * targetRatio = ((16 * h : ℕ) : ℚ) / ((9 : ℕ) : ℚ) := by
    rw [targetRatio]; push_cast; ring
  rw [hcast, Nat.floor_div_nat, Nat.floor_natCast]

theorem floor_div_target (w : ℕ) : ⌊(w : ℚ) / targetRatio⌋₊ = 9 * w / 16 := by
  have hcast : (w : ℚ) / targetRatio = ((9 * w : ℕ) : ℚ) / ((16 : ℕ) : ℚ) := by
    rw [targetRatio]; push_cast; ring
  rw [hcast, Nat.floor_div_nat, Nat.floor_natCast]

theorem ratio_gt_iff (w h : ℕ) (hh : 0 < h) :
    targetRatio < (w : ℚ) / (h : ℚ) ↔ 16 * h < 9 * w := by
  rw [targetRatio, div_lt_div_iff₀ (by norm_num) (by exact_mod_cast hh)]
  constructor
  · intro hlt
    have : (16 * h : ℚ) < (9 * w : ℚ) := by linarith
    exact_mod_cast this
  · intro hlt
    have : ((16 * h : ℕ) : ℚ) < ((9 * w : ℕ) : ℚ) := by exact_mod_cast hlt
    push_cast at this; linarith

/- ### Branch evaluations of `computeTransform` in `Nat` arithmetic. -/

theorem transform_height_zero (method : Method) (w : ℕ) :
    computeTransform method w 0 = none := by
  simp [computeTransform]

theorem crop_wider_eq (w h : ℕ) (hh : 0 < h) (hc : 16 * h < 9 * w) :
    computeTransform Method.crop w h =
      some { op := CanvasOp.cropBox ((w - 16 * h / 9) / 2) 0
                     ((w - 16 * h / 9) / 2 + 16 * h / 9) h,
             outputGeometry := ⟨16 * h / 9, h⟩ } := by
  have hcond : targetRatio < (w : ℚ) / (h : ℚ) := (ratio_gt_iff w h hh).mpr hc
  simp [computeTransform, hh.ne', hcond, floor_mul_target]

theorem crop_taller_eq (w h : ℕ) (hh : 0 < h) (hc : 9 * w ≤ 16 * h) :
    computeTransform Method.crop w h =
      some { op := CanvasOp.cropBox 0 ((h - 9 * w / 16) / 2) w
                     ((h - 9 * w / 16) / 2 + 9 * w / 16),
             outputGeometry := ⟨w, 9 * w / 16⟩ } := by
  have hcond : ¬ targetRatio < (w : ℚ) / (h : ℚ) := fun hlt =>
    absurd ((ratio_gt_iff w h hh).mp hlt) (by omega)
  simp [computeTransform, hh.ne', hcond, floor_div_target]

theorem fit_wider_eq (w h : ℕ) (hh : 0 < h) (hc : 16 * h < 9 * w) :
    computeTransform Method.fit w h =
      some { op := CanvasOp.pasteOnCanvas Mode.rgb w (9 * w / 16) (0, 0, 0) 0
                     ((9 * w / 16 - h) / 2),
             outputGeometry := ⟨w, 9 * w / 16⟩ } := by
  have hcond : targetRatio < (w : ℚ) / (h : ℚ) := (ratio_gt_iff w h hh).mpr hc
  simp [computeTransform, hh.ne', hcond, floor_div_target]

theorem fit_taller_eq (w h : ℕ) (hh : 0 < h) (hc : 9 * w ≤ 16 * h) :
    computeTransform Method.fit w h =
      some { op := CanvasOp.pasteOnCanvas Mode.rgb (16 * h / 9) h (0, 0, 0)
                     ((16 * h / 9 - w) / 2) 0,
             outputGeometry := ⟨16 * h / 9, h⟩ } := by
  have hcond : ¬ targetRatio < (w : ℚ) / (h : ℚ) := fun hlt =>
    absurd ((ratio_gt_iff w h hh).mp hlt) (by omega)
  simp [computeTransform, hh.ne', hcond, floor_mul_target]

theorem stretch_eq (w h : ℕ) (hh : 0 < h) :
    computeTransform Method.stretch w h =
      some { op := CanvasOp.resizeTo w (9 * w / 16),
             outputGeometry := ⟨w, 9 * w / 16⟩ } := by
  simp [computeTransform, hh.ne', floor_div_target]

/-- Output geometry of a method on given dimensions (degenerate `⟨0, 0⟩` when
the transform raises, i.e. when the height is zero). -/
def outGeomD (m : Method) (w h : ℕ) : Geometry :=
  ((computeTransform m w h).map fun r => r.outputGeometry).getD ⟨0, 0⟩

/-- C1 counterexample: crop on the positive geometry 1×1 takes the taller
branch and computes `new_height = int(1 / (16/9)) = 0`, so the output
geometry is 1×0: the claimed positivity invariant fails. -/
theorem invariant_counterexample :
    ¬ ∀ (m : Method) (w h : ℕ), 0 < w → 0 < h →
        (computeTransform m w h).isSome = true →
        0 < (outGeomD m w h).width ∧ 0 < (outGeomD m w h).height := by
  intro hcl
  have hsome : (computeTransform Method.crop 1 1).isSome = true := by
    rw [crop_taller_eq 1 1 one_pos (by norm_num)]; rfl
  have hpos := (hcl Method.crop 1 1 one_pos one_pos hsome).2
  simp only [outGeomD, crop_taller_eq 1 1 one_pos (by norm_num),
    Option.map_some', Option.getD_some] at hpos
  norm_num at hpos

/-- C1 amended: every invocation on a positive geometry yields a positive
output geometry provided the width is at least 2; for fit a positive width
suffices. (Crop and stretch on a width-1 input floor the recomputed height
`int(width / (16/9))` to 0, so the original claim fails there.) -/
theorem output_geometry_positive (m : Method) (w h : ℕ) (hh : 0 < h)
    (hw : 2 ≤ w ∨ (0 < w ∧ m = Method.fit)) :
    (computeTransform m w h).isSome = true ∧
    0 < (outGeomD m w h).width ∧ 0 < (outGeomD m w h).height := by
  have hwpos : 0 < w := by rcases hw with hw | ⟨hw, -⟩ <;> omega
  cases m
  case crop =>
    rcases lt_or_ge (16 * h) (9 * w) with hc | hc
    · simp only [outGeomD, crop_wider_eq w h hh hc, Option.map_some',
        Option.getD_some, Option.isSome_some]
      refine ⟨trivial, ?_, hh⟩
      show 0 < 16 * h / 9
      omega
    · have hw2 : 2 ≤ w := by
        rcases hw with hw | ⟨-, habs⟩
        · exact hw
        · exact absurd habs (by simp)
      simp only [outGeomD, crop_taller_eq w h hh hc, Option.map_some',
        Option.getD_some, Option.isSome_some]
      refine ⟨trivial, hwpos, ?_⟩
      show 0 < 9 * w / 16
      omega
  case fit =>
    rcases lt_or_ge (16 * h) (9 * w) with hc | hc
    · simp only [outGeomD, fit_wider_eq w h hh hc, Option.map_some',
        Option.getD_some, Option.isSome_some]
      refine ⟨trivial, hwpos, ?_⟩
      show 0 < 9 * w / 16
      omega
    · simp only [outGeomD, fit_taller_eq w h hh hc, Option.map_some',
        Option.getD_some, Option.isSome_some]
      refine ⟨trivial, ?_, hh⟩
      show 0 < 16 * h / 9
      omega
  case stretch =>
    have hw2 : 2 ≤ w := by
      rcases hw with hw | ⟨-, habs⟩
      · exact hw
      · exact absurd habs (by simp)
    simp only [outGeomD, stretch_eq w h hh, Option.map_some',
      Option.getD_some, Option.isSome_some]
    refine ⟨trivial, hwpos, ?_⟩
    show 0 < 9 * w / 16
    omega

/-- Witness for the amended C1 at stretch on 2×1. -/
theorem output_geometry_positive_witness :
    (computeTransform Method.stretch 2 1).isSome = true ∧
    0 < (outGeomD Method.stretch 2 1).width ∧
    0 < (outGeomD Method.stretch 2 1).height :=
  output_geometry_positive Method.stretch 2 1 (by norm_num) (Or.inl (by norm_num))

/-- C2: the crop method follows the specified algorithm. When the input is
strictly wider than 16:9 (`width/height > 16/9`, i.e. `16·height < 9·width`)
it emits the crop rectangle `(left, 0, left + newWidth, height)` with
`newWidth = ⌊height · 16/9⌋ = 16·height/9` and
`left = ⌊(width - newWidth)/2⌋`; otherwise — the exactly-equal-ratio case
included — it emits `(0, top, width, top + newHeight)` with
`newHeight = ⌊width / (16/9)⌋ = 9·width/16` and
`top = ⌊(height - newHeight)/2⌋`; either way the output geometry equals the
crop rectangle's dimensions. -/
theorem crop_follows_spec (w h : ℕ) (hw : 0 < w) (hh : 0 < h) :
    (16 * h < 9 * w →
      computeTransform Method.crop w h =
        some { op := CanvasOp.cropBox ((w - 16 * h / 9) / 2) 0
                       ((w - 16 * h / 9) / 2 + 16 * h / 9) h,
               outputGeometry := ⟨16 * h / 9, h⟩ }) ∧
    (9 * w ≤ 16 * h →
      computeTransform Method.crop w h =
        some { op := CanvasOp.cropBox 0 ((h - 9 * w / 16) / 2) w
                       ((h - 9 * w / 16) / 2 + 9 * w / 16),
               outputGeometry := ⟨w, 9 * w / 16⟩ }) :=
  ⟨crop_wider_eq w h hh, crop_taller_eq w h hh⟩

/-- Witness for C2 at the spec's Example 1: 1920×1200 is taller than 16:9,
crops to height `⌊1920 · 9/16⌋ = 1080` at top offset 60, output 1920×1080. -/
theorem crop_follows_spec_witness :
    computeTransform Method.crop 1920 1200 =
      some { op := CanvasOp.cropBox 0 60 1920 1140,
             outputGeometry := ⟨1920, 1080⟩ } :=
  (crop_follows_spec 1920 1200 (by norm_num) (by norm_num)).2 (by norm_num)

/-- C3 counterexample: width 0 with height 5 is not rejected: crop proceeds
into its taller branch and succeeds with a degenerate result, so no guard
fails the transformation with an InvalidGeometry error. -/
theorem no_guard_counterexample :
    (computeTransform Method.crop 0 5).isSome = true := by
  rw [crop_taller_eq 0 5 (by norm_num) (by norm_num)]; rfl

/-- C3 amended: `resize_to_16_9` contains no non-positive-dimension guard at
all. A zero width is accepted and processed by every method (no failure of
any kind), and a zero height fails only because line 31 divides by the
height when computing `current_ratio` (a ZeroDivisionError), not because of
any InvalidGeometry check preceding the crop/fit/stretch computation. -/
theorem no_invalid_geometry_guard (m : Method) (w h : ℕ) (hh : 0 < h) :
    computeTransform m w 0 = none ∧ (computeTransform m 0 h).isSome = true := by
  refine ⟨transform_height_zero m w, ?_⟩
  cases m
  case crop => rw [crop_taller_eq 0 h hh (by omega)]; rfl
  case fit => rw [fit_taller_eq 0 h hh (by omega)]; rfl
  case stretch => rw [stretch_eq 0 h hh]; rfl

/-- Witness for the amended C3 at fit with width 3 (height-zero case) and
height 5 (width-zero case). -/
theorem no_invalid_geometry_guard_witness :
    computeTransform Method.fit 3 0 = none ∧
    (computeTransform Method.fit 0 5).isSome = true :=
  no_invalid_geometry_guard Method.fit 3 5 (by norm_num)

/-- C4: fit never shrinks and centers the original. In the wider branch the
canvas is `(width, 9·width/16)` with the original pasted at vertical offset
`⌊(newHeight - height)/2⌋`; in the taller branch the canvas is
`(16·height/9, height)` with horizontal offset `⌊(newWidth - width)/2⌋`.
In both branches the output geometry is ≥ the input geometry in both axes,
the whole unscaled original fits inside the canvas at that offset, and the
two paddings of the padded axis differ by at most one pixel. -/
theorem fit_pads_centered (w h : ℕ) (hw : 0 < w) (hh : 0 < h) :
    (16 * h < 9 * w →
      computeTransform Method.fit w h =
        some { op := CanvasOp.pasteOnCanvas Mode.rgb w (9 * w / 16) (0, 0, 0)
                       0 ((9 * w / 16 - h) / 2),
               outputGeometry := ⟨w, 9 * w / 16⟩ } ∧
      h ≤ 9 * w / 16 ∧
      (9 * w / 16 - h) / 2 + h ≤ 9 * w / 16 ∧
      (9 * w / 16 - h) / 2 ≤ 9 * w / 16 - h - (9 * w / 16 - h) / 2 ∧
      9 * w / 16 - h - (9 * w / 16 - h) / 2 ≤ (9 * w / 16 - h) / 2 + 1) ∧
    (9 * w ≤ 16 * h →
      computeTransform Method.fit w h =
        some { op := CanvasOp.pasteOnCanvas Mode.rgb (16 * h / 9) h (0, 0, 0)
                       ((16 * h / 9 - w) / 2) 0,
               outputGeometry := ⟨16 * h / 9, h⟩ } ∧
      w ≤ 16 * h / 9 ∧
      (16 * h / 9 - w) / 2 + w ≤ 16 * h / 9 ∧
      (16 * h / 9 - w) / 2 ≤ 16 * h / 9 - w - (16 * h / 9 - w) / 2 ∧
      16 * h / 9 - w - (16 * h / 9 - w) / 2 ≤ (16 * h / 9 - w) / 2 + 1) := by
  constructor
  · intro hc
    exact ⟨fit_wider_eq w h hh hc, by omega, by omega, by omega, by omega⟩
  · intro hc
    exact ⟨fit_taller_eq w h hh hc, by omega, by omega, by omega, by omega⟩

/-- Witness for C4 at the spec's Example 2: 800×800 is taller than 16:9, so
the canvas becomes `⌊800 · 16/9⌋ = 1422` wide with left offset 311. -/
theorem fit_pads_centered_witness :
    computeTransform Method.fit 800 800 =
      some { op := CanvasOp.pasteOnCanvas Mode.rgb 1422 800 (0, 0, 0) 311 0,
             outputGeometry := ⟨1422, 800⟩ } ∧
    (800 : ℕ) ≤ 1422 ∧
    (311 : ℕ) + 800 ≤ 1422 ∧
    (311 : ℕ) ≤ 1422 - 800 - 311 ∧
    (1422 : ℕ) - 800 - 311 ≤ 311 + 1 :=
  (fit_pads_centered 800 800 (by norm_num) (by norm_num)).2 (by norm_num)

/-- C5: stretch always outputs exactly `(width, ⌊width / (16/9)⌋)` =
`(width, 9·width/16)`: the width is kept and the height is recomputed from
the width alone, so the result is independent of the input height. -/
theorem stretch_spec (w h h2 : ℕ) (hh : 0 < h) (hh2 : 0 < h2) :
    computeTransform Method.stretch w h =
      some { op := CanvasOp.resizeTo w (9 * w / 16),
             outputGeometry := ⟨w, 9 * w / 16⟩ } ∧
    computeTransform Method.stretch w h = computeTransform Method.stretch w h2 := by
  refine ⟨stretch_eq w h hh, ?_⟩
  rw [stretch_eq w h hh, stretch_eq w h2 hh2]

/-- Witness for C5 at the spec's Example 4: 1000×2000 stretches to
`(1000, ⌊1000 · 9/16⌋) = (1000, 562)`, the same as for input height 3. -/
theorem stretch_spec_witness :
    computeTransform Method.stretch 1000 2000 =
      some { op := CanvasOp.resizeTo 1000 562,
             outputGeometry := ⟨1000, 562⟩ } ∧
    computeTransform Method.stretch 1000 2000 =
      computeTransform Method.stretch 1000 3 :=
  stretch_spec 1000 2000 3 (by norm_num) (by norm_num)

/-- C6: on an input already at exact 16:9 ratio, crop and fit are no-ops on
the geometry: both take the else branch, the recomputed dimension floors to
the original one exactly, and the output geometry equals the input. -/
theorem exact_ratio_identity (w h : ℕ) (hw : 0 < w) (hh : 0 < h)
    (hr : (w : ℚ) / (h : ℚ) = 16 / 9) :
    outGeomD Method.crop w h = ⟨w, h⟩ ∧ outGeomD Method.fit w h = ⟨w, h⟩ := by
  have hq : (h : ℚ) ≠ 0 := Nat.cast_ne_zero.mpr hh.ne'
  have hcast : (w : ℚ) * 9 = 16 * (h : ℚ) := by
    field_simp at hr
    linarith
  have h916 : 9 * w = 16 * h := by
    exact_mod_cast (by push_cast; linarith : ((9 * w : ℕ) : ℚ) = ((16 * h : ℕ) : ℚ))
  constructor
  · simp only [outGeomD, crop_taller_eq w h hh (by omega), Option.map_some',
      Option.getD_some, Geometry.mk.injEq]
    exact ⟨trivial, by omega⟩
  · simp only [outGeomD, fit_taller_eq w h hh (by omega), Option.map_some',
      Option.getD_some, Geometry.mk.injEq]
    exact ⟨by omega, trivial⟩

/-- Witness for C6 at the spec's Example 3: 3840×2160 is exactly 16:9 and is
left unchanged by crop and by fit. -/
theorem exact_ratio_identity_witness :
    outGeomD Method.crop 3840 2160 = ⟨3840, 2160⟩ ∧
    outGeomD Method.fit 3840 2160 = ⟨3840, 2160⟩ :=
  exact_ratio_identity 3840 2160 (by norm_num) (by norm_num) (by norm_num)

/-- C7: crop never enlarges: the output geometry is ≤ the input geometry in
both axes. -/
theorem crop_never_enlarges (w h : ℕ) (hw : 0 < w) (hh : 0 < h) :
    (outGeomD Method.crop w h).width ≤ w ∧ (outGeomD Method.crop w h).height ≤ h := by
  rcases lt_or_ge (16 * h) (9 * w) with hc | hc
  · simp only [outGeomD, crop_wider_eq w h hh hc, Option.map_some', Option.getD_some]
    exact ⟨by show 16 * h / 9 ≤ w; omega, le_rfl⟩
  · simp only [outGeomD, crop_taller_eq w h hh hc, Option.map_some', Option.getD_some]
    exact ⟨le_rfl, by show 9 * w / 16 ≤ h; omega⟩

/-- Witness for C7 at 1920×1200. -/
theorem crop_never_enlarges_witness :
    (outGeomD Method.crop 1920 1200).width ≤ 1920 ∧
    (outGeomD Method.crop 1920 1200).height ≤ 1200 :=
  crop_never_enlarges 1920 1200 (by norm_num) (by norm_num)

/-- Ratio error when the height stays fixed and the width becomes
`16·h/9`: the output ratio is within `1/h` of `16/9`. -/
theorem ratio_err_h_fixed (h : ℕ) (hh : 0 < h) :
    |((16 * h / 9 : ℕ) : ℚ) / (h : ℚ) - 16 / 9| < 1 / (h : ℚ) := by
  have hq : (0 : ℚ) < (h : ℚ) := by exact_mod_cast hh
  have hdm : 9 * (16 * h / 9) + 16 * h % 9 = 16 * h := Nat.div_add_mod (16 * h) 9
  have hmlt : 16 * h % 9 < 9 := Nat.mod_lt _ (by norm_num)
  have hc : (9 : ℚ) * ((16 * h / 9 : ℕ) : ℚ) + ((16 * h % 9 : ℕ) : ℚ)
      = 16 * (h : ℚ) := by
    exact_mod_cast congrArg (fun n : ℕ => (n : ℚ)) hdm
  set W : ℚ := ((16 * h / 9 : ℕ) : ℚ) with hWdef
  set E : ℚ := ((16 * h % 9 : ℕ) : ℚ) with hEdef
  have hE0 : (0 : ℚ) ≤ E := by positivity
  have hE9 : E < 9 := by rw [hEdef]; exact_mod_cast hmlt
  rw [abs_sub_lt_iff]
  constructor
  · rw [div_sub_div _ _ hq.ne' (by norm_num : (9 : ℚ) ≠ 0),
      div_lt_div_iff₀ (by positivity) hq]
    have hEh : (0 : ℚ) ≤ E * (h : ℚ) := mul_nonneg hE0 hq.le
    nlinarith
  · rw [div_sub_div _ _ (by norm_num : (9 : ℚ) ≠ 0) hq.ne',
      div_lt_div_iff₀ (by positivity) hq]
    have hEh : E * (h : ℚ) < 9 * (h : ℚ) := mul_lt_mul_of_pos_right hE9 hq
    nlinarith

/-- Ratio error when the width stays fixed and the height becomes `9·w/16`
(width at least 2, so that the floored height is positive): the output ratio
is at least `16/9` and exceeds it by less than `(16/9)/newHeight`. -/
theorem ratio_err_w_fixed (w : ℕ) (hw : 2 ≤ w) :
    16 / 9 ≤ (w : ℚ) / ((9 * w / 16 : ℕ) : ℚ) ∧
    (w : ℚ) / ((9 * w / 16 : ℕ) : ℚ) - 16 / 9
      < 16 / 9 / ((9 * w / 16 : ℕ) : ℚ) := by
  have hH : 0 < 9 * w / 16 := by omega
  have hHq : (0 : ℚ) < ((9 * w / 16 : ℕ) : ℚ) := by exact_mod_cast hH
  have hdm : 16 * (9 * w / 16) + 9 * w % 16 = 9 * w := Nat.div_add_mod (9 * w) 16
  have hmlt : 9 * w % 16 < 16 := Nat.mod_lt _ (by norm_num)
  have hc : (16 : ℚ) * ((9 * w / 16 : ℕ) : ℚ) + ((9 * w % 16 : ℕ) : ℚ)
      = 9 * (w : ℚ) := by
    exact_mod_cast congrArg (fun n : ℕ => (n : ℚ)) hdm
  set H : ℚ := ((9 * w / 16 : ℕ) : ℚ) with hHdef
  set E : ℚ := ((9 * w % 16 : ℕ) : ℚ) with hEdef
  have hE0 : (0 : ℚ) ≤ E := by positivity
  have hE16 : E < 16 := by rw [hEdef]; exact_mod_cast hmlt
  constructor
  · rw [div_le_div_iff₀ (by norm_num) hHq]
    nlinarith
  · rw [div_div, div_sub_div _ _ hHq.ne' (by norm_num : (9 : ℚ) ≠ 0),
      div_lt_div_iff₀ (by positivity) (by positivity)]
    nlinarith [mul_pos hHq (by norm_num : (0 : ℚ) < 9)]

/-- C8 counterexample: crop on 7×4 (taller than 16:9, width held fixed)
outputs 7×3, whose ratio 7/3 differs from 16/9 by 5/9, far more than the
claimed bound 1/width = 1/7. -/
theorem ratio_bound_counterexample :
    outGeomD Method.crop 7 4 = ⟨7, 3⟩ ∧
    ¬ |geomRatio (outGeomD Method.crop 7 4) - 16 / 9| ≤ 1 / (7 : ℚ) := by
  have hgeom : outGeomD Method.crop 7 4 = ⟨7, 3⟩ := by
    simp only [outGeomD, crop_taller_eq 7 4 (by norm_num) (by norm_num),
      Option.map_some', Option.getD_some]
  refine ⟨hgeom, ?_⟩
  rw [hgeom, not_le]
  have hval : geomRatio ⟨7, 3⟩ - 16 / 9 = 5 / 9 := by
    simp only [geomRatio]
    norm_num
  rw [hval, abs_of_nonneg (by norm_num : (0 : ℚ) ≤ 5 / 9)]
  norm_num

/-- C8 amended: in the branches that hold the height fixed (crop on
strictly-wider inputs, fit on not-wider inputs) the output ratio is within
`1/height` of 16/9, as claimed. In the branches that hold the width fixed
and recompute the height (crop on not-wider inputs, fit on strictly-wider
inputs, stretch always) the claimed `1/width` bound is false; what holds
(for width ≥ 2, so the floored height is positive) is that the output ratio
is at least 16/9 and exceeds it by less than `(16/9)/outputHeight`. -/
theorem ratio_within_bounds (w h : ℕ) (hw : 0 < w) (hh : 0 < h) :
    (16 * h < 9 * w →
      |geomRatio (outGeomD Method.crop w h) - 16 / 9| < 1 / (h : ℚ)) ∧
    (9 * w ≤ 16 * h →
      |geomRatio (outGeomD Method.fit w h) - 16 / 9| < 1 / (h : ℚ)) ∧
    (2 ≤ w →
      (9 * w ≤ 16 * h →
        16 / 9 ≤ geomRatio (outGeomD Method.crop w h) ∧
        geomRatio (outGeomD Method.crop w h) - 16 / 9
          < 16 / 9 / ((outGeomD Method.crop w h).height : ℚ)) ∧
      (16 * h < 9 * w →
        16 / 9 ≤ geomRatio (outGeomD Method.fit w h) ∧
        geomRatio (outGeomD Method.fit w h) - 16 / 9
          < 16 / 9 / ((outGeomD Method.fit w h).height : ℚ)) ∧
      (16 / 9 ≤ geomRatio (outGeomD Method.stretch w h) ∧
        geomRatio (outGeomD Method.stretch w h) - 16 / 9
          < 16 / 9 / ((outGeomD Method.stretch w h).height : ℚ))) := by
  refine ⟨?_, ?_, ?_⟩
  · intro hc
    simp only [outGeomD, crop_wider_eq w h hh hc, Option.map_some',
      Option.getD_some, geomRatio]
    exact ratio_err_h_fixed h hh
  · intro hc
    simp only [outGeomD, fit_taller_eq w h hh hc, Option.map_some',
      Option.getD_some, geomRatio]
    exact ratio_err_h_fixed h hh
  · intro hw2
    refine ⟨?_, ?_, ?_⟩
    · intro hc
      simp only [outGeomD, crop_taller_eq w h hh hc, Option.map_some',
        Option.getD_some, geomRatio]
      exact ratio_err_w_fixed w hw2
    · intro hc
      simp only [outGeomD, fit_wider_eq w h hh hc, Option.map_some',
        Option.getD_some, geomRatio]
      exact ratio_err_w_fixed w hw2
    · simp only [outGeomD, stretch_eq w h hh, Option.map_some',
        Option.getD_some, geomRatio]
      exact ratio_err_w_fixed w hw2

/-- Witness for the amended C8: 100×9 is strictly wider, so crop keeps the
height with ratio error below 1/9; stretch on the same input has output
ratio at least 16/9. -/
theorem ratio_within_bounds_witness :
    |geomRatio (outGeomD Method.crop 100 9) - 16 / 9| < 1 / ((9 : ℕ) : ℚ) ∧
    16 / 9 ≤ geomRatio (outGeomD Method.stretch 100 9) :=
  ⟨(ratio_within_bounds 100 9 (by norm_num) (by norm_num)).1 (by norm_num),
   ((ratio_within_bounds 100 9 (by norm_num) (by norm_num)).2.2 (by norm_num)).2.2.1⟩

/-- Per-file loop of `batch_process` (lines 102-109): each discovered file is
processed once, in order; the `try`/`except Exception` body records a
per-file failure (the printed error line) and falls through to the next
iteration instead of re-raising. -/
def processLoop {α ε β : Type} (process : α → Except ε β) :
    List α → List (α × Except ε β)
  | [] => []
  | f :: rest => (f, process f) :: processLoop process rest

/-- `batch_process` (lines 88-109): `output_path.mkdir(parents=True,
exist_ok=True)` runs on line 92, before the loop, and is not inside any
`try`, so a failure there propagates and aborts the whole batch; otherwise
every discovered file goes through the per-file loop. -/
def batch_process {α ε β : Type} (mkdirResult : Except ε Unit)
    (process : α → Except ε β) (files : List α) :
    Except ε (List (α × Except ε β)) :=
  match mkdirResult with
  | .error e => .error e
  | .ok _ => .ok (processLoop process files)

theorem processLoop_eq_map {α ε β : Type} (process : α → Except ε β)
    (files : List α) :
    processLoop process files = files.map fun f => (f, process f) := by
  induction files with
  | nil => rfl
  | cons f rest ih => simp [processLoop, ih]

/-- C9: a per-file failure does not abort the batch. When directory creation
succeeds, the batch produces one outcome per discovered file, in order: the
entry at every index `i` is that file paired with its own processing result,
regardless of failures at any other index, so files after a failing one are
still processed. The batch as a whole fails exactly when directory creation
fails. -/
theorem batch_continues {α ε β : Type} (process : α → Except ε β)
    (files : List α) (mkdirResult : Except ε Unit) (i : ℕ) :
    (∀ u, mkdirResult = Except.ok u →
      batch_process mkdirResult process files
        = Except.ok (processLoop process files) ∧
      (processLoop process files).length = files.length ∧
      (processLoop process files)[i]?
        = (files[i]?).map fun f => (f, process f)) ∧
    (∀ e, mkdirResult = Except.error e →
      batch_process mkdirResult process files = Except.error e) := by
  constructor
  · rintro ⟨⟩ rfl
    refine ⟨rfl, ?_, ?_⟩
    · rw [processLoop_eq_map, List.length_map]
    · rw [processLoop_eq_map, List.getElem?_map]
  · rintro e rfl
    rfl

/-- Concrete failing process used in the C9 witness: file 20 fails with
error code 7, other files succeed. -/
def procEx : ℕ → Except ℕ ℕ := fun n => if n = 20 then .error 7 else .ok n

/-- Witness for C9: in a batch of three files where the middle one fails,
the batch still succeeds, all three outcomes are present, and the file after
the failing one was processed with its own (successful) result. -/
theorem batch_continues_witness :
    procEx 20 = Except.error 7 ∧
    (batch_process (Except.ok ()) procEx [10, 20, 30]
        = Except.ok (processLoop procEx [10, 20, 30]) ∧
      (processLoop procEx [10, 20, 30]).length = ([10, 20, 30] : List ℕ).length ∧
      (processLoop procEx [10, 20, 30])[2]?
        = (([10, 20, 30] : List ℕ)[2]?).map fun f => (f, procEx f)) ∧
    (processLoop procEx [10, 20, 30])[2]? = some (30, Except.ok 30) :=
  ⟨rfl, (batch_continues procEx [10, 20, 30] (Except.ok ()) 2).1 () rfl, rfl⟩

/-- C10: fit rebuilds the image on a freshly created canvas whose mode is the
`RGB` literal of `Image.new` (line 51 / 58), filled black, so its output mode
is RGB whatever the input mode was; crop and stretch operate on the original
buffer and preserve its mode. -/
theorem fit_output_rgb (img : Img) (hh : 0 < img.height) :
    (applyMethod Method.fit img).isSome = true ∧
    ((applyMethod Method.fit img).map Img.mode).getD img.mode = Mode.rgb ∧
    ((applyMethod Method.crop img).map Img.mode).getD Mode.rgb = img.mode ∧
    ((applyMethod Method.stretch img).map Img.mode).getD Mode.rgb = img.mode := by
  obtain ⟨w, h, mo⟩ := img
  simp only at hh ⊢
  refine ⟨?_, ?_, ?_, ?_⟩
  · rcases lt_or_ge (16 * h) (9 * w) with hc | hc
    · simp [applyMethod, fit_wider_eq w h hh hc]
    · simp [applyMethod, fit_taller_eq w h hh hc]
  · rcases lt_or_ge (16 * h) (9 * w) with hc | hc
    · simp [applyMethod, fit_wider_eq w h hh hc, opMode]
    · simp [applyMethod, fit_taller_eq w h hh hc, opMode]
  · rcases lt_or_ge (16 * h) (9 * w) with hc | hc
    · simp [applyMethod, crop_wider_eq w h hh hc, opMode]
    · simp [applyMethod, crop_taller_eq w h hh hc, opMode]
  · simp [applyMethod, stretch_eq w h hh, opMode]

/-- Witness for C10 on a 100×50 RGBA image: fit outputs RGB, crop and
stretch keep RGBA. -/
theorem fit_output_rgb_witness :
    (applyMethod Method.fit ⟨100, 50, Mode.rgba⟩).isSome = true ∧
    ((applyMethod Method.fit ⟨100, 50, Mode.rgba⟩).map Img.mode).getD
        (⟨100, 50, Mode.rgba⟩ : Img).mode = Mode.rgb ∧
    ((applyMethod Method.crop ⟨100, 50, Mode.rgba⟩).map Img.mode).getD
        Mode.rgb = (⟨100, 50, Mode.rgba⟩ : Img).mode ∧
    ((applyMethod Method.stretch ⟨100, 50, Mode.rgba⟩).map Img.mode).getD
        Mode.rgb = (⟨100, 50, Mode.rgba⟩ : Img).mode :=
  fit_output_rgb ⟨100, 50, Mode.rgba⟩ (by norm_num)
